import Mathlib

/-!
Verification of the encrypted-json-protocol engine (`index.js`).

The JavaScript source is shallowly embedded.  JSON values are modelled by the
inductive `Json`; JSON numbers are modelled as integers (every number the
protocol engine itself produces or inspects — message-type tags and the
handshake version — is an integer, and the handshake schema's `multipleOf 1`
keyword restricts accepted versions to integers).  A JavaScript value that may
be `undefined` (e.g. indexing an array out of bounds) is modelled as
`Option Json`, with `none` standing for `undefined`.

External collaborators are modelled at their interface, as the specification
directs: compiled schema validators are abstract boolean functions on values,
the stream-cipher primitive is an abstract keystream parameter, and the
length-prefixed framing layer is the frame boundary already recovered.
-/

namespace EncryptedJsonProtocol

/-- JSON values.  Numbers are modelled as integers (see the file comment).
Objects are association lists; values produced by `JSON.parse` never repeat
a key. -/
inductive Json where
  | null : Json
  | bool (b : Bool) : Json
  | num (n : Int) : Json
  | str (s : String) : Json
  | arr (items : List Json) : Json
  | obj (fields : List (String × Json)) : Json

/-- JavaScript property access `j[k]` on an object (`undefined` = `none`). -/
def Json.getField : Json → String → Option Json
  | .obj fields, k => (fields.find? (fun kv => kv.1 = k)).map (fun kv => kv.2)
  | _, _ => none

/-- JavaScript index access `j[i]` (`undefined` = `none`): `parsed[0]`,
`parsed[1]` in `_parse`. -/
def jsonIndex : Json → Nat → Option Json
  | .arr items, i => items[i]?
  | _, _ => none

/-- `sodium.crypto_stream_NONCEBYTES` (xsalsa20). -/
def STREAM_NONCEBYTES : Nat := 24

/-- `sodium.crypto_stream_KEYBYTES` (xsalsa20). -/
def STREAM_KEYBYTES : Nat := 32

/-- Hex digit value, upper or lower case, as accepted by
`Buffer.from(string, 'hex')`. -/
def hexDigit? (c : Char) : Option Nat :=
  if '0' ≤ c ∧ c ≤ '9' then some (c.toNat - '0'.toNat)
  else if 'a' ≤ c ∧ c ≤ 'f' then some (c.toNat - 'a'.toNat + 10)
  else if 'A' ≤ c ∧ c ≤ 'F' then some (c.toNat - 'A'.toNat + 10)
  else none

/-- `Buffer.from(s, 'hex')`: consume hex-digit pairs, stopping at the first
pair that is not two hex digits (Node truncates there). -/
def hexDecode : List Char → List Nat
  | c1 :: c2 :: rest =>
    match hexDigit? c1, hexDigit? c2 with
    | some hi, some lo => (hi * 16 + lo) :: hexDecode rest
    | _, _ => []
  | _ => []

/-- One lowercase hex digit. -/
def hexDigitChar (n : Nat) : Char :=
  if n < 10 then Char.ofNat ('0'.toNat + n) else Char.ofNat ('a'.toNat + n - 10)

/-- `buffer.toString('hex')`: two lowercase hex digits per byte. -/
def hexEncode : List Nat → String
  | [] => ""
  | b :: rest =>
    String.mk [hexDigitChar (b % 256 / 16), hexDigitChar (b % 256 % 16)] ++ hexEncode rest

/-- A character matched by the character class `[a-f0-9]` of the handshake
nonce pattern. -/
def isHexChar (c : Char) : Bool :=
  ('a' ≤ c ∧ c ≤ 'f') ∨ ('0' ≤ c ∧ c ≤ '9')

/-- The handshake schema's `version` member schema:
`{type: 'number', multipleOf: 1, minimum: 1}` (over integer-modelled
numbers, `multipleOf 1` always holds). -/
def versionOk : Json → Bool
  | .num n => 1 ≤ n
  | _ => false

/-- The handshake schema's `nonce` member schema:
`{type: 'string', pattern: '^[a-f0-9]{2*STREAM_NONCEBYTES}$'}`. -/
def nonceOk : Json → Bool
  | .str s => decide (s.length = 2 * STREAM_NONCEBYTES) && s.data.all isHexChar
  | _ => false

/-- One property of a handshake body is admissible: it is `version` with a
valid version, or `nonce` with a valid nonce (`additionalProperties: false`
rejects every other key). -/
def hsFieldOk (kv : String × Json) : Bool :=
  (decide (kv.1 = "version") && versionOk kv.2) ||
    (decide (kv.1 = "nonce") && nonceOk kv.2)

/-- The compiled `validHandshake` meta-validator (`ajv.compile` of the
Handshake Message schema): an object, every property admissible, and the
required `version` and `nonce` properties present.  (Values coming from
`JSON.parse` never repeat a key, so checking every occurrence agrees with
the schema engine.) -/
def validHandshake : Option Json → Bool
  | some (.obj fields) =>
    fields.all hsFieldOk &&
      (fields.any (fun kv => kv.1 = "version") && fields.any (fun kv => kv.1 = "nonce"))
  | _ => false

/-- The per-type options passed to the factory, with the schema already
compiled by the external schema engine: `valid` is `ajv.compile(schema)`,
`errs` is the structured error detail that validator reports for a value
(`valid.errors`), `verify` is the optional semantic hook. -/
structure MessageOptions where
  valid : Option Json → Bool
  errs : Option Json → List String
  verify : Option (Option Json → Bool)

/-- A built Message Type Descriptor (the entries of `messageTypesByName` /
`messageTypesByPrefix`); `pfx` is the message-type prefix (the word is
spelled `pfx` here). -/
structure MessageType where
  name : String
  valid : Option Json → Bool
  errs : Option Json → List String
  verify : Option Json → Bool
  pfx : Nat

/-- Lexicographic order on character lists, by code point (JavaScript's
default sort comparator compares code-unit sequences; the two agree on the
ASCII message names at issue). -/
def charListLe : List Char → List Char → Bool
  | [], _ => true
  | _ :: _, [] => false
  | a :: as, b :: bs => if a < b then true else if b < a then false else charListLe as bs

/-- The string comparison used by `messageNames.sort()`. -/
def strLe (a b : String) : Prop :=
  charListLe a.data b.data = true

instance : DecidableRel strLe := fun a b => by
  unfold strLe; infer_instance

/-- `messageNames.sort()`: JavaScript sorts the (unique) keys
lexicographically; for a list of distinct names any correct sort yields the
same result, modelled by insertion sort under `strLe`. -/
def sortNames (names : List String) : List String :=
  List.insertionSort strLe names

/-- Tag the names of a list with consecutive integers starting at `k`
(the factory's `forEach` counter, with `k = 1`). -/
def assignFrom (k : Nat) : List String → List (String × Nat)
  | [] => []
  | n :: rest => (n, k) :: assignFrom (k + 1) rest

/-- Look up a declared message's options by name (`messages[name]`).  The
default is never reached when `n` is drawn from the mapping's own keys. -/
def findOpts (messages : List (String × MessageOptions)) (n : String) : MessageOptions :=
  ((messages.find? (fun kv => kv.1 = n)).map (fun kv => kv.2)).getD
    { valid := fun _ => false, errs := fun _ => [], verify := none }

/-- The factory's `forEach` body: build one descriptor per sorted name, with
`pfx = index + 1` (prefix 0 is reserved for handshakes) and `verify`
defaulting to the always-true function. -/
def assignTypes (messages : List (String × MessageOptions)) (k : Nat) :
    List String → List MessageType
  | [] => []
  | n :: rest =>
    { name := n,
      valid := (findOpts messages n).valid,
      errs := (findOpts messages n).errs,
      verify := ((findOpts messages n).verify).getD (fun _ => true),
      pfx := k } :: assignTypes messages (k + 1) rest

/-- The registry built by `module.exports`: sort the declared names, then
assign descriptors with 1-based prefixes. -/
def buildTypes (messages : List (String × MessageOptions)) : List MessageType :=
  assignTypes messages 1 (sortNames (messages.map (fun kv => kv.1)))

/-- The Protocol Definition shared by all channel instances of one factory
call: the `version` option plus the built descriptor list (in sorted name
order, which is also ascending prefix order). -/
structure ProtocolDef where
  version : Int
  types : List MessageType

/-- `module.exports(options)`, restricted to the data the claims need (the
synchronous option assertions are configuration-time preconditions). -/
def buildProtocol (version : Int) (messages : List (String × MessageOptions)) :
    ProtocolDef :=
  { version := version, types := buildTypes messages }

/-- `messageTypePrefixes`: `[0]` followed by each assigned message-type
prefix, in registration order. -/
def knownPfxs (P : ProtocolDef) : List Int :=
  0 :: P.types.map (fun t => (t.pfx : Int))

/-- `messageTypesByPrefix[prefix]` where `prefix` is `parsed[0]` (possibly
`undefined` or a non-number, in which case the lookup misses). -/
def findByPfx (P : ProtocolDef) : Option Json → Option MessageType
  | some (.num n) => P.types.find? (fun t => (t.pfx : Int) = n)
  | _ => none

/-- The compiled `validTuple` meta-validator (`ajv.compile` of the Protocol
Message schema): an array of at most two items (`additionalItems: false`)
whose first item, when present, is a number drawn from
`messageTypePrefixes`. -/
def validTuple (P : ProtocolDef) (v : Json) : Bool :=
  match v with
  | .arr items =>
    decide (items.length ≤ 2) &&
      (match items[0]? with
       | none => true
       | some (Json.num n) => (knownPfxs P).contains n
       | some _ => false)
  | _ => false

/-- A live stream-cipher handle (`sodium.crypto_stream_xor_instance`):
the primitive is external, so the handle is just its nonce, key and the
current keystream position. -/
structure Cipher where
  nonce : List Nat
  key : List Nat
  pos : Nat
deriving DecidableEq, Repr

/-- `initializeCipher(nonce, secretKey)` (the buffer-length assertions are
its preconditions; `_parse` checks the nonce length before calling it and
the constructor checks the key length). -/
def makeCipher (nonce key : List Nat) : Cipher :=
  { nonce := nonce, key := key, pos := 0 }

/-- The keystream of the external cipher primitive: byte `i` of the stream
determined by a nonce and a key.  Abstract — the engine only XORs with it. -/
abbrev Keystream := List Nat → List Nat → Nat → Nat

/-- `cipher.update(chunk, chunk)`: XOR the chunk with the keystream at the
current position, in place, and advance the position. -/
def Cipher.update (ks : Keystream) (c : Cipher) (chunk : List Nat) :
    Cipher × List Nat :=
  ({ c with pos := c.pos + chunk.length },
   chunk.mapIdx (fun i b => Nat.xor (b % 256) (ks c.nonce c.key (c.pos + i) % 256)))

/-- The mutable per-connection state of a channel instance (`Protocol`):
shared key, outbound nonce and cipher, the `_sentNonce` flag, and the
inbound nonce and cipher (absent until a valid handshake is received).
Ciphers are `Option` because `finalize` nulls them out. -/
structure ChannelState where
  key : List Nat
  sendingNonce : List Nat
  sendingCipher : Option Cipher
  sentNonce : Bool
  receivingNonce : Option (List Nat)
  receivingCipher : Option Cipher
deriving DecidableEq, Repr

/-- The `Protocol` constructor: eagerly create the outbound cipher from a
fresh random nonce (the nonce is a parameter here, standing for
`randombytes_buf`); no handshake sent, no inbound cipher yet. -/
def Protocol.init (key nonce : List Nat) : ChannelState :=
  { key := key,
    sendingNonce := nonce,
    sendingCipher := some (makeCipher nonce key),
    sentNonce := false,
    receivingNonce := none,
    receivingCipher := none }

/-- Events the channel emits to the application (`this.emit(...)` in
`_parse`). -/
inductive ParseEvent where
  | handshakeEvt : ParseEvent
  | message (name : String) (body : Option Json) : ParseEvent
  | invalid (body : Option Json) : ParseEvent

/-- The fatal outcomes of `_parse`.  An error handed to `_parse`'s callback
propagates through the parser stream's error handler, which calls
`self.destroy(error)`: returning one of these terminates the channel. -/
inductive ProtocolError where
  | jsonParseError : ProtocolError
  | invalidTuple : ProtocolError
  | versionMismatch (remote : Option Json) : ProtocolError
  | nonceAssertFailed : ProtocolError

/-- `prefix === 0` on `parsed[0]` (strict equality, false for `undefined`
and non-numbers). -/
def isZeroTag : Option Json → Bool
  | some (Json.num n) => n = 0
  | _ => false

/-- `body.version` of a handshake body. -/
def bodyVersionJson (body : Option Json) : Option Json :=
  match body with
  | some j => j.getField "version"
  | none => none

/-- `version === body.version` (strict equality of the local version number
with whatever `body.version` is). -/
def versionMatches (version : Int) (bv : Option Json) : Bool :=
  match bv with
  | some (Json.num v) => v = version
  | _ => false

/-- The string handed to `Buffer.from(body.nonce, 'hex')`; under
`validHandshake` it is always a string, the default is never reached. -/
def bodyNonceStr (body : Option Json) : String :=
  match body with
  | some j =>
    match j.getField "nonce" with
    | some (Json.str s) => s
    | _ => ""
  | none => ""

/-- Lines 254–262 of the source: store the decoded remote nonce and create
the inbound cipher from it and the shared key. -/
def receiveNonce (st : ChannelState) (bytes : List Nat) : ChannelState :=
  { st with receivingNonce := some bytes,
            receivingCipher := some (makeCipher bytes st.key) }

/-- `Protocol.prototype._parse(message, callback)`.  The input is the result
of `JSON.parse` on the frame (`none` = the frame bytes were not valid
JSON).  `Except.error` is a fatal outcome (the callback receives an error
and the channel is destroyed); `Except.ok` carries the updated state and
the event emitted, if any. -/
def processFrame (P : ProtocolDef) (st : ChannelState) (raw : Option Json) :
    Except ProtocolError (ChannelState × Option ParseEvent) :=
  match raw with
  | none => .error .jsonParseError
  | some parsed =>
    if validTuple P parsed = true then
      let pfx := jsonIndex parsed 0
      let body := jsonIndex parsed 1
      if isZeroTag pfx = true ∧ validHandshake body = true then
        if versionMatches P.version (bodyVersionJson body) = true then
          match st.receivingCipher with
          | none =>
            let bytes := hexDecode (bodyNonceStr body).data
            if bytes.length = STREAM_NONCEBYTES then
              .ok (receiveNonce st bytes, some .handshakeEvt)
            else
              .error .nonceAssertFailed
          | some _ => .ok (st, some .handshakeEvt)
        else
          .error (.versionMismatch (bodyVersionJson body))
      else
        match findByPfx P pfx with
        | none => .ok (st, some (.invalid body))
        | some t =>
          if t.valid body = true ∧ t.verify body = true then
            .ok (st, some (.message t.name body))
          else
            .ok (st, some (.invalid body))
    else
      .error .invalidTuple

/-- Feed a sequence of already-deframed frames through `_parse`, collecting
the emitted events; a fatal outcome destroys the channel and stops
processing. -/
def processFrames (P : ProtocolDef) (st : ChannelState) :
    List (Option Json) → Except ProtocolError (ChannelState × List ParseEvent)
  | [] => .ok (st, [])
  | f :: rest =>
    match processFrame P st f with
    | .error e => .error e
    | .ok (st', evt) =>
      match processFrames P st' rest with
      | .error e => .error e
      | .ok (st'', evts) => .ok (st'', evt.toList ++ evts)

/-- The outbound transform (`_readableStream`, lines 126–134): once the
local nonce has been sent, encrypt the chunk in place with the outbound
cipher; before that, pass it through unmodified.  `Except.error` models the
`TypeError` of calling `update` on a nulled-out cipher (only possible after
`finalize`). -/
def readableTransform (ks : Keystream) (st : ChannelState) (chunk : List Nat) :
    Except Unit (ChannelState × List Nat) :=
  if st.sentNonce = true then
    match st.sendingCipher with
    | some c =>
      let r := c.update ks chunk
      .ok ({ st with sendingCipher := some r.1 }, r.2)
    | none => .error ()
  else
    .ok (st, chunk)

/-- The inbound transform (`_writableStream`, lines 151–159): once the
inbound cipher exists, decrypt the chunk in place; until then, hand the
bytes on in the clear. -/
def writableTransform (ks : Keystream) (st : ChannelState) (chunk : List Nat) :
    ChannelState × List Nat :=
  match st.receivingCipher with
  | some c =>
    let r := c.update ks chunk
    ({ st with receivingCipher := some r.1 }, r.2)
  | none => (st, chunk)

/-- `_encode(prefix, body)`: the tuple written to the encoder stream
(`JSON.stringify` and length-prefix framing are the byte-level encoding of
this value). -/
def encodeTuple (pfx : Int) (body : Json) : Json :=
  Json.arr [Json.num pfx, body]

/-- `Protocol.prototype.handshake(callback)`.  `writeErr` is the outcome the
encoder stream reports for the write (`none` = success).  Result: the state
afterwards, the error handed to the callback (if any), and the frame written
to the encoder stream (if any). -/
def handshake (P : ProtocolDef) (st : ChannelState) (writeErr : Option String) :
    ChannelState × Option String × Option Json :=
  if st.sentNonce = true then
    (st, some "already sent handshake", none)
  else
    let frame := encodeTuple 0 (Json.obj
      [("version", Json.num P.version), ("nonce", Json.str (hexEncode st.sendingNonce))])
    match writeErr with
    | some e => (st, some e, some frame)
    | none => ({ st with sentNonce := true }, none, some frame)

/-- The error thrown synchronously by `_sendMessage`. -/
inductive SendError where
  | unknownType (name : String) : SendError
  | invalidPayload (name : String) (errs : List String) : SendError

/-- `Protocol.prototype._sendMessage(typeName, data, callback)` (the per-name
send methods installed on the prototype call this).  `Except.error` is a
synchronous throw to the caller: nothing is written and the channel state is
untouched; `Except.ok` is the frame handed to `_encode`. -/
def sendMessage (P : ProtocolDef) (typeName : String) (data : Json) :
    Except SendError Json :=
  match P.types.find? (fun t => t.name = typeName) with
  | none => .error (.unknownType typeName)
  | some t =>
    if t.valid (some data) = true ∧ t.verify (some data) = true then
      .ok (encodeTuple (t.pfx : Int) data)
    else
      .error (.invalidPayload t.name (t.errs (some data)))

/-- The outcome of `Protocol.prototype.finalize(callback)`. -/
inductive FinalizeOutcome where
  | drainFailed (e : String) : FinalizeOutcome
  | nullCipherCrash : FinalizeOutcome
  | finalized (st : ChannelState) : FinalizeOutcome
deriving DecidableEq, Repr

/-- `Protocol.prototype.finalize(callback)`.  `drainErr` is the result of the
injected `_finalize` drain hook (`none` = success); on failure the channel is
destroyed with that error.  On success the encoder stream is ended and both
ciphers are finalized and nulled; calling `.final()` on an already-null
cipher is the `TypeError` crash modelled by `nullCipherCrash`. -/
def finalize (st : ChannelState) (drainErr : Option String) : FinalizeOutcome :=
  match drainErr with
  | some e => .drainFailed e
  | none =>
    match st.sendingCipher, st.receivingCipher with
    | some _, some _ =>
      .finalized { st with sendingCipher := none, receivingCipher := none }
    | _, _ => .nullCipherCrash

/-- The frames of one `_parse` call that take the duplicate-free handshake
path: valid tuple, tag 0, valid handshake body, version matching `P`. -/
def matchingHandshake (P : ProtocolDef) (raw : Option Json) : Bool :=
  match raw with
  | none => false
  | some j =>
    validTuple P j && isZeroTag (jsonIndex j 0) && validHandshake (jsonIndex j 1) &&
      versionMatches P.version (bodyVersionJson (jsonIndex j 1))

/-- `parsed[1]` of a frame (`none` when the frame was not valid JSON or the
tuple has no second item). -/
def frameBody : Option Json → Option Json
  | some j => jsonIndex j 1
  | none => none

/-- Whether one `_parse` call trips the receiving-nonce byte-length
assertion (`nanoassert` at lines 255–258). -/
def hitsNonceAssert (P : ProtocolDef) (st : ChannelState) (raw : Option Json) : Bool :=
  match processFrame P st raw with
  | .error .nonceAssertFailed => true
  | _ => false

/-! ### Concrete fixtures

The protocol of the repository's test: version 1, message types `apple`
(schema `{type: 'string', const: 'apple'}`) and `orange` (likewise), a
32-byte key. -/

/-- Compiled `apple` schema: the constant string `"apple"`. -/
def appleOpts : MessageOptions :=
  { valid := fun v => match v with | some (Json.str s) => s = "apple" | _ => false,
    errs := fun _ => ["should be equal to constant apple"],
    verify := none }

/-- Compiled `orange` schema: the constant string `"orange"`. -/
def orangeOpts : MessageOptions :=
  { valid := fun v => match v with | some (Json.str s) => s = "orange" | _ => false,
    errs := fun _ => ["should be equal to constant orange"],
    verify := none }

/-- The test's factory call. -/
def testProtocol : ProtocolDef :=
  buildProtocol 1 [("apple", appleOpts), ("orange", orangeOpts)]

/-- A fresh test channel: all-zero key, all-zero outbound nonce. -/
def testChannel : ChannelState :=
  Protocol.init (List.replicate STREAM_KEYBYTES 0) (List.replicate STREAM_NONCEBYTES 0)

/-- The descriptor the factory builds for `apple` (prefix 1: `apple` sorts
before `orange`). -/
def appleBuiltT : MessageType :=
  { name := "apple",
    valid := appleOpts.valid,
    errs := appleOpts.errs,
    verify := fun _ => true,
    pfx := 1 }

/-- A 48-character lowercase hex nonce string. -/
def testNonceHex : String :=
  "aaaaaaaaaaaaaaaaaaaaaaaaaaaaaaaaaaaaaaaaaaaaaaaa"

/-- A well-formed version-1 handshake frame carrying `testNonceHex`. -/
def testHandshakeFrame : Json :=
  Json.arr [Json.num 0,
    Json.obj [("version", Json.num 1), ("nonce", Json.str testNonceHex)]]

example : validHandshake (jsonIndex testHandshakeFrame 1) = true := by decide
example : validTuple testProtocol testHandshakeFrame = true := by decide
example : matchingHandshake testProtocol (some testHandshakeFrame) = true := by decide
example : (hexDecode testNonceHex.data).length = STREAM_NONCEBYTES := by decide
example :
    processFrame testProtocol testChannel (some testHandshakeFrame) =
      .ok (receiveNonce testChannel (hexDecode testNonceHex.data),
           some .handshakeEvt) := by
  rfl
example :
    processFrame testProtocol testChannel (some (Json.arr [Json.num 7, Json.str "x"])) =
      .error .invalidTuple := by
  rfl
example :
    processFrame testProtocol testChannel
        (some (Json.arr [Json.num 1, Json.str "apple"])) =
      .ok (testChannel, some (.message "apple" (some (Json.str "apple")))) := by
  rfl

/-! ### The sort comparator is a linear order -/

theorem charListLe_total : ∀ as bs : List Char,
    charListLe as bs = true ∨ charListLe bs as = true
  | [], _ => by left; simp [charListLe]
  | _ :: _, [] => by right; simp [charListLe]
  | a :: as, b :: bs => by
    by_cases hab : a < b
    · left; simp [charListLe, hab]
    · by_cases hba : b < a
      · right; simp [charListLe, hba]
      · rcases charListLe_total as bs with h | h
        · left; simp [charListLe, hab, hba, h]
        · right; simp [charListLe, hab, hba, h]

theorem charListLe_trans : ∀ as bs cs : List Char,
    charListLe as bs = true → charListLe bs cs = true → charListLe as cs = true
  | [], _, _ => by intro _ _; simp [charListLe]
  | _ :: _, [], _ => by intro h _; simp [charListLe] at h
  | _ :: _, _ :: _, [] => by intro _ h; simp [charListLe] at h
  | a :: as, b :: bs, c :: cs => by
    intro h1 h2
    by_cases hab : a < b
    · by_cases hbc : b < c
      · simp [charListLe, lt_trans hab hbc]
      · by_cases hcb : c < b
        · simp [charListLe, hbc, hcb] at h2
        · have hbceq : b = c := le_antisymm (not_lt.mp hcb) (not_lt.mp hbc)
          subst hbceq
          simp [charListLe, hab]
    · by_cases hba : b < a
      · simp [charListLe, hab, hba] at h1
      · have habeq : a = b := le_antisymm (not_lt.mp hba) (not_lt.mp hab)
        subst habeq
        simp only [charListLe, if_neg (lt_irrefl a)] at h1
        by_cases hac : a < c
        · simp [charListLe, hac]
        · by_cases hca : c < a
          · simp [charListLe, hac, hca] at h2
          · simp only [charListLe, if_neg hac, if_neg hca] at h2 ⊢
            exact charListLe_trans as bs cs h1 h2

theorem charListLe_antisymm : ∀ as bs : List Char,
    charListLe as bs = true → charListLe bs as = true → as = bs
  | [], [] => by intro _ _; rfl
  | [], _ :: _ => by intro _ h; simp [charListLe] at h
  | _ :: _, [] => by intro h _; simp [charListLe] at h
  | a :: as, b :: bs => by
    intro h1 h2
    by_cases hab : a < b
    · simp [charListLe, lt_asymm hab, hab] at h2
    · by_cases hba : b < a
      · simp [charListLe, hab, hba] at h1
      · have habeq : a = b := le_antisymm (not_lt.mp hba) (not_lt.mp hab)
        subst habeq
        simp only [charListLe, if_neg (lt_irrefl a)] at h1 h2
        rw [charListLe_antisymm as bs h1 h2]

instance : IsTotal String strLe :=
  ⟨fun a b => charListLe_total a.data b.data⟩

instance : IsTrans String strLe :=
  ⟨fun a b c => charListLe_trans a.data b.data c.data⟩

instance : IsAntisymm String strLe :=
  ⟨fun a b h1 h2 => by
    have h := charListLe_antisymm a.data b.data h1 h2
    cases a; cases b
    exact congrArg String.mk (by simpa using h)⟩

/-- Any two sorts of the same multiset of names agree: the name order in the
declared mapping is irrelevant to `sortNames`. -/
theorem sortNames_eq_of_perm {l₁ l₂ : List String} (h : l₁.Perm l₂) :
    sortNames l₁ = sortNames l₂ :=
  List.eq_of_perm_of_sorted
    ((List.perm_insertionSort strLe l₁).trans
      (h.trans (List.perm_insertionSort strLe l₂).symm))
    (List.sorted_insertionSort strLe l₁)
    (List.sorted_insertionSort strLe l₂)

/-! ### Prefix assignment -/

theorem assignTypes_map_name_pfx (messages : List (String × MessageOptions)) :
    ∀ (names : List String) (k : Nat),
      (assignTypes messages k names).map (fun t => (t.name, t.pfx)) = assignFrom k names
  | [], _ => rfl
  | _ :: rest, k => by
    simp [assignTypes, assignFrom, assignTypes_map_name_pfx messages rest (k + 1)]

theorem assignTypes_pfx_ge (messages : List (String × MessageOptions)) :
    ∀ (names : List String) (k : Nat) (t : MessageType),
      t ∈ assignTypes messages k names → k ≤ t.pfx
  | [], _, _ => by intro h; simp [assignTypes] at h
  | n :: rest, k, t => by
    intro h
    simp only [assignTypes, List.mem_cons] at h
    rcases h with h | h
    · subst h; exact le_refl k
    · exact Nat.le_of_succ_le (assignTypes_pfx_ge messages rest (k + 1) t h)

theorem assignTypes_length (messages : List (String × MessageOptions)) :
    ∀ (names : List String) (k : Nat),
      (assignTypes messages k names).length = names.length
  | [], _ => rfl
  | _ :: rest, k => by
    simp [assignTypes, assignTypes_length messages rest (k + 1)]

theorem assignTypes_get (messages : List (String × MessageOptions)) :
    ∀ (names : List String) (k : Nat) (i : Nat)
      (h : i < (assignTypes messages k names).length),
      ((assignTypes messages k names).get ⟨i, h⟩).pfx = k + i ∧
        some ((assignTypes messages k names).get ⟨i, h⟩).name = names[i]?
  | [], _, i, h => by simp [assignTypes] at h
  | n :: rest, k, 0, h => by simp [assignTypes]
  | n :: rest, k, i + 1, h => by
    have := assignTypes_get messages rest (k + 1) i (by
      simpa [assignTypes] using Nat.lt_of_succ_lt_succ (by simpa [assignTypes] using h))
    simpa [assignTypes, Nat.add_assoc, Nat.add_comm 1 i] using this

/-- Every message-type prefix the factory assigns is at least 1. -/
theorem buildTypes_pfx_pos (messages : List (String × MessageOptions))
    (t : MessageType) (h : t ∈ buildTypes messages) : 1 ≤ t.pfx :=
  assignTypes_pfx_ge messages _ 1 t h

/-- No built message type is registered under the handshake tag 0. -/
theorem findByPfx_zero_of_built (version : Int)
    (messages : List (String × MessageOptions)) :
    findByPfx (buildProtocol version messages) (some (Json.num 0)) = none := by
  simp only [findByPfx, buildProtocol]
  rw [List.find?_eq_none]
  intro t ht
  have := buildTypes_pfx_pos messages t ht
  simp only [decide_eq_true_eq]
  omega

/-! ### Hex decoding -/

theorem isHexChar_hexDigit {c : Char} (h : isHexChar c = true) :
    (hexDigit? c).isSome = true := by
  simp only [isHexChar, decide_eq_true_eq] at h
  by_cases h1 : '0' ≤ c ∧ c ≤ '9'
  · simp [hexDigit?, h1]
  · rcases h with h | h
    · by_cases h2 : 'a' ≤ c ∧ c ≤ 'f'
      · simp [hexDigit?, h1, h2]
      · exact absurd h h2
    · exact absurd h h1

theorem hexDecode_length_of_hex : ∀ (l : List Char),
    (∀ c ∈ l, isHexChar c = true) → (hexDecode l).length = l.length / 2
  | [], _ => by simp [hexDecode]
  | [c], _ => by simp [hexDecode]
  | c1 :: c2 :: rest, h => by
    obtain ⟨d1, hd1⟩ := Option.isSome_iff_exists.mp
      (isHexChar_hexDigit (h c1 (by simp)))
    obtain ⟨d2, hd2⟩ := Option.isSome_iff_exists.mp
      (isHexChar_hexDigit (h c2 (by simp)))
    have ih := hexDecode_length_of_hex rest
      (fun c hc => h c (by simp [hc]))
    simp only [hexDecode, hd1, hd2, List.length_cons, ih]
    omega

/-- A value passing the `nonce` member schema hex-decodes to exactly
`STREAM_NONCEBYTES` bytes. -/
theorem nonceOk_decode_length {s : String} (h : nonceOk (Json.str s) = true) :
    (hexDecode s.data).length = STREAM_NONCEBYTES := by
  simp only [nonceOk, Bool.and_eq_true, decide_eq_true_eq, List.all_eq_true] at h
  obtain ⟨hlen, hhex⟩ := h
  have hl : s.data.length = 2 * STREAM_NONCEBYTES := hlen
  rw [hexDecode_length_of_hex s.data hhex, hl]
  omega

/-- A body passing the handshake schema always carries a nonce string that
decodes to exactly `STREAM_NONCEBYTES` bytes: the byte-length assertion in
`_parse` cannot fire. -/
theorem validHandshake_nonce_length {body : Option Json}
    (h : validHandshake body = true) :
    (hexDecode (bodyNonceStr body).data).length = STREAM_NONCEBYTES := by
  match body with
  | none => simp [validHandshake] at h
  | some (.obj fields) =>
    simp only [validHandshake, Bool.and_eq_true, List.all_eq_true,
      List.any_eq_true, decide_eq_true_eq] at h
    obtain ⟨hall, -, kv, hkv, hname⟩ := h
    have hfind : ∃ kv₀, fields.find? (fun kv => kv.1 = "nonce") = some kv₀ := by
      have : (fields.find? (fun kv => kv.1 = "nonce")).isSome = true := by
        rw [List.find?_isSome]
        exact ⟨kv, hkv, by simp [hname]⟩
      exact Option.isSome_iff_exists.mp this
    obtain ⟨kv₀, hkv₀⟩ := hfind
    have hmem : kv₀ ∈ fields := List.mem_of_find?_eq_some hkv₀
    have hkey : kv₀.1 = "nonce" := by
      have := List.find?_some hkv₀
      simpa using this
    have hok := hall kv₀ hmem
    simp only [hsFieldOk, hkey, Bool.or_eq_true, Bool.and_eq_true,
      decide_eq_true_eq] at hok
    rcases hok with ⟨hbad, -⟩ | ⟨-, hnonce⟩
    · exact absurd hbad (by decide)
    · have hstr : ∃ s, kv₀.2 = Json.str s := by
        match hv : kv₀.2 with
        | .str s => exact ⟨s, rfl⟩
        | .null | .bool _ | .num _ | .arr _ | .obj _ =>
          rw [hv] at hnonce
          simp [nonceOk] at hnonce
      obtain ⟨s, hs⟩ := hstr
      have hbody : bodyNonceStr (some (Json.obj fields)) = s := by
        simp [bodyNonceStr, Json.getField, hkv₀, hs]
      rw [hbody]
      exact nonceOk_decode_length (hs ▸ hnonce)
  | some .null | some (.bool _) | some (.num _) | some (.str _) | some (.arr _) =>
    simp [validHandshake] at h

/-! ### `_parse` branch lemmas -/

theorem processFrame_no_json (P : ProtocolDef) (st : ChannelState) :
    processFrame P st none = .error .jsonParseError := rfl

theorem processFrame_bad_tuple {P : ProtocolDef} {j : Json}
    (st : ChannelState) (h : validTuple P j = false) :
    processFrame P st (some j) = .error .invalidTuple := by
  simp [processFrame, h]

theorem validTuple_pair_not_known {P : ProtocolDef} {p : Int} (b : Json)
    (h : ¬ p ∈ knownPfxs P) : validTuple P (Json.arr [Json.num p, b]) = false := by
  simp [validTuple, h]

theorem processFrame_handshake_fresh {P : ProtocolDef} {st : ChannelState}
    {raw : Option Json} (h : matchingHandshake P raw = true)
    (hc : st.receivingCipher = none) :
    processFrame P st raw =
      .ok (receiveNonce st (hexDecode (bodyNonceStr (frameBody raw)).data),
           some .handshakeEvt) := by
  match raw with
  | none => simp [matchingHandshake] at h
  | some j =>
    simp only [matchingHandshake, Bool.and_eq_true] at h
    obtain ⟨⟨⟨h1, h2⟩, h3⟩, h4⟩ := h
    have h5 := validHandshake_nonce_length h3
    simp [processFrame, frameBody, h1, h2, h3, h4, hc, h5]

theorem processFrame_handshake_dup {P : ProtocolDef} {st : ChannelState}
    {raw : Option Json} {c : Cipher} (h : matchingHandshake P raw = true)
    (hc : st.receivingCipher = some c) :
    processFrame P st raw = .ok (st, some .handshakeEvt) := by
  match raw with
  | none => simp [matchingHandshake] at h
  | some j =>
    simp only [matchingHandshake, Bool.and_eq_true] at h
    obtain ⟨⟨⟨h1, h2⟩, h3⟩, h4⟩ := h
    simp [processFrame, h1, h2, h3, h4, hc]

theorem processFrame_version_mismatch {P : ProtocolDef} {j : Json}
    (st : ChannelState) (h1 : validTuple P j = true)
    (h2 : isZeroTag (jsonIndex j 0) = true)
    (h3 : validHandshake (jsonIndex j 1) = true)
    (h4 : versionMatches P.version (bodyVersionJson (jsonIndex j 1)) = false) :
    processFrame P st (some j) =
      .error (.versionMismatch (bodyVersionJson (jsonIndex j 1))) := by
  simp [processFrame, h1, h2, h3, h4]

theorem processFrame_unregistered {P : ProtocolDef} {j : Json}
    (st : ChannelState) (h1 : validTuple P j = true)
    (h2 : isZeroTag (jsonIndex j 0) = false ∨ validHandshake (jsonIndex j 1) = false)
    (h3 : findByPfx P (jsonIndex j 0) = none) :
    processFrame P st (some j) = .ok (st, some (.invalid (jsonIndex j 1))) := by
  rcases h2 with h2 | h2 <;> simp [processFrame, h1, h2, h3]

theorem processFrame_soft_invalid {P : ProtocolDef} {j : Json} {t : MessageType}
    (st : ChannelState) (h1 : validTuple P j = true)
    (h2 : isZeroTag (jsonIndex j 0) = false ∨ validHandshake (jsonIndex j 1) = false)
    (h3 : findByPfx P (jsonIndex j 0) = some t)
    (h4 : t.valid (jsonIndex j 1) = false ∨ t.verify (jsonIndex j 1) = false) :
    processFrame P st (some j) = .ok (st, some (.invalid (jsonIndex j 1))) := by
  rcases h2 with h2 | h2 <;> rcases h4 with h4 | h4 <;>
    simp [processFrame, h1, h2, h3, h4]

theorem processFrame_message {P : ProtocolDef} {j : Json} {t : MessageType}
    (st : ChannelState) (h1 : validTuple P j = true)
    (h2 : isZeroTag (jsonIndex j 0) = false ∨ validHandshake (jsonIndex j 1) = false)
    (h3 : findByPfx P (jsonIndex j 0) = some t)
    (h4 : t.valid (jsonIndex j 1) = true) (h5 : t.verify (jsonIndex j 1) = true) :
    processFrame P st (some j) = .ok (st, some (.message t.name (jsonIndex j 1))) := by
  rcases h2 with h2 | h2 <;> simp [processFrame, h1, h2, h3, h4, h5]

/-- `_parse` never reaches the receiving-nonce byte-length assertion's error
branch: every path either errors earlier or has a schema-validated nonce. -/
theorem processFrame_ne_assert (P : ProtocolDef) (st : ChannelState)
    (raw : Option Json) :
    processFrame P st raw ≠ .error .nonceAssertFailed := by
  intro hcontra
  match raw with
  | none => simp [processFrame] at hcontra
  | some j =>
    by_cases h1 : validTuple P j = true
    · by_cases h2 : isZeroTag (jsonIndex j 0) = true ∧ validHandshake (jsonIndex j 1) = true
      · obtain ⟨h2a, h2b⟩ := h2
        by_cases h4 : versionMatches P.version (bodyVersionJson (jsonIndex j 1)) = true
        · have hm : matchingHandshake P (some j) = true := by
            simp [matchingHandshake, h1, h2a, h2b, h4]
          cases hc : st.receivingCipher with
          | none => rw [processFrame_handshake_fresh hm hc] at hcontra; simp at hcontra
          | some c => rw [processFrame_handshake_dup hm hc] at hcontra; simp at hcontra
        · rw [processFrame_version_mismatch st h1 h2a h2b
            (Bool.not_eq_true _ ▸ h4)] at hcontra
          simp at hcontra
      · have h2' : isZeroTag (jsonIndex j 0) = false ∨ validHandshake (jsonIndex j 1) = false := by
          rcases not_and_or.mp h2 with h | h
          · exact Or.inl (Bool.not_eq_true _ ▸ h)
          · exact Or.inr (Bool.not_eq_true _ ▸ h)
        cases hf : findByPfx P (jsonIndex j 0) with
        | none => rw [processFrame_unregistered st h1 h2' hf] at hcontra; simp at hcontra
        | some t =>
          by_cases hv : t.valid (jsonIndex j 1) = true ∧ t.verify (jsonIndex j 1) = true
          · rw [processFrame_message st h1 h2' hf hv.1 hv.2] at hcontra
            simp at hcontra
          · have hv' : t.valid (jsonIndex j 1) = false ∨ t.verify (jsonIndex j 1) = false := by
              rcases not_and_or.mp hv with h | h
              · exact Or.inl (Bool.not_eq_true _ ▸ h)
              · exact Or.inr (Bool.not_eq_true _ ▸ h)
            rw [processFrame_soft_invalid st h1 h2' hf hv'] at hcontra
            simp at hcontra
    · rw [processFrame_bad_tuple st (Bool.not_eq_true _ ▸ h1)] at hcontra
      simp at hcontra

/-! ### Frame sequences -/

/-- A state that already holds the inbound cipher is left entirely unchanged
by any number of further valid matching handshake frames; each re-raises the
"handshake" event. -/
theorem processFrames_handshake_dup {P : ProtocolDef} {c : Cipher} :
    ∀ (frames : List (Option Json)),
      (∀ f ∈ frames, matchingHandshake P f = true) →
      ∀ (st : ChannelState), st.receivingCipher = some c →
      processFrames P st frames =
        .ok (st, List.replicate frames.length ParseEvent.handshakeEvt)
  | [], _, st, _ => by simp [processFrames]
  | f :: rest, h, st, hc => by
    have hf := h f (by simp)
    have ih := processFrames_handshake_dup rest (fun g hg => h g (by simp [hg])) st hc
    simp [processFrames, processFrame_handshake_dup hf hc, ih, List.replicate_succ]

theorem validTuple_pair_known {P : ProtocolDef} {p : Int} (b : Json)
    (h : p ∈ knownPfxs P) : validTuple P (Json.arr [Json.num p, b]) = true := by
  simp [validTuple, h]

/-! ### The claims -/

/-- C10: for every handshake body that has passed the handshake schema, the
assertion that the hex-decoded receiving nonce is exactly
`STREAM_NONCEBYTES` bytes long never fails; stated for every protocol,
channel state and received frame, `_parse` never produces that assertion's
error — its error branch is unreachable. -/
theorem c10_nonce_assert_unreachable (P : ProtocolDef) (st : ChannelState)
    (raw : Option Json) : hitsNonceAssert P st raw = false := by
  unfold hitsNonceAssert
  cases hp : processFrame P st raw with
  | ok v => rfl
  | error e =>
    cases e with
    | nonceAssertFailed => exact absurd hp (processFrame_ne_assert P st raw)
    | jsonParseError => rfl
    | invalidTuple => rfl
    | versionMismatch r => rfl

/-- C3: over every sequence of received handshake frames (tag 0, body
passing the handshake schema, matching version) the inbound cipher is
initialized exactly once, on the first such frame — the final state is
exactly the state created by the first frame, holding the cipher built from
that frame's nonce and the shared key — while every frame (the first and
each duplicate) re-raises the "handshake" event without error and leaves
the inbound cipher and nonce unchanged thereafter. -/
theorem c3_inbound_cipher_once (P : ProtocolDef) (st : ChannelState)
    (f : Option Json) (rest : List (Option Json))
    (hall : ∀ g ∈ f :: rest, matchingHandshake P g = true)
    (hc : st.receivingCipher = none) :
    processFrames P st (f :: rest) =
      .ok (receiveNonce st (hexDecode (bodyNonceStr (frameBody f)).data),
           List.replicate (rest.length + 1) ParseEvent.handshakeEvt) ∧
    (receiveNonce st (hexDecode (bodyNonceStr (frameBody f)).data)).receivingCipher =
      some (makeCipher (hexDecode (bodyNonceStr (frameBody f)).data) st.key) ∧
    (receiveNonce st (hexDecode (bodyNonceStr (frameBody f)).data)).receivingNonce =
      some (hexDecode (bodyNonceStr (frameBody f)).data) := by
  refine ⟨?_, rfl, rfl⟩
  have hf := hall f (by simp)
  have hfresh := processFrame_handshake_fresh hf hc
  have hdup := processFrames_handshake_dup rest (fun g hg => hall g (by simp [hg]))
    (receiveNonce st (hexDecode (bodyNonceStr (frameBody f)).data)) rfl
  simp [processFrames, hfresh, hdup, List.replicate_succ]

theorem c3_witness :
    processFrames testProtocol testChannel
        [some testHandshakeFrame, some testHandshakeFrame] =
      .ok (receiveNonce testChannel
             (hexDecode (bodyNonceStr (frameBody (some testHandshakeFrame))).data),
           List.replicate 2 ParseEvent.handshakeEvt) :=
  (c3_inbound_cipher_once testProtocol testChannel (some testHandshakeFrame)
    [some testHandshakeFrame] (by decide) rfl).1

/-- C6: a received frame with tag 0 whose body passes the handshake schema
but declares a version different from the local one makes `_parse` fail
with a "version mismatch" error carrying the remote version, and that error
is fatal: processing of the frame sequence stops there with the error (the
parser-stream error handler destroys the channel). -/
theorem c6_version_mismatch_fatal (P : ProtocolDef) (st : ChannelState)
    (j : Json) (v : Int) (h1 : validTuple P j = true)
    (h2 : isZeroTag (jsonIndex j 0) = true)
    (h3 : validHandshake (jsonIndex j 1) = true)
    (hv : bodyVersionJson (jsonIndex j 1) = some (Json.num v))
    (hne : v ≠ P.version) :
    processFrame P st (some j) = .error (.versionMismatch (some (Json.num v))) ∧
    ∀ rest : List (Option Json),
      processFrames P st (some j :: rest) =
        .error (.versionMismatch (some (Json.num v))) := by
  have h4 : versionMatches P.version (bodyVersionJson (jsonIndex j 1)) = false := by
    simp [versionMatches, hv, hne]
  have hmain := processFrame_version_mismatch st h1 h2 h3 h4
  rw [hv] at hmain
  exact ⟨hmain, fun rest => by simp [processFrames, hmain]⟩

theorem c6_witness :
    processFrame testProtocol testChannel
        (some (Json.arr [Json.num 0,
          Json.obj [("version", Json.num 2), ("nonce", Json.str testNonceHex)]])) =
      .error (.versionMismatch (some (Json.num 2))) :=
  (c6_version_mismatch_fatal testProtocol testChannel
    (Json.arr [Json.num 0,
      Json.obj [("version", Json.num 2), ("nonce", Json.str testNonceHex)]])
    2 (by decide) (by decide) (by decide) rfl (by decide)).1

/-- C9: a received frame parsing as a two-element tuple with tag 0 whose
body fails the handshake schema is neither dispatched as a handshake nor
fatal: no message type of a built protocol is registered under 0, so
`_parse` emits an "invalid" event carrying the raw body and leaves the
channel state untouched (the channel stays open). -/
theorem c9_zero_tag_bad_body_soft (version : Int)
    (messages : List (String × MessageOptions)) (st : ChannelState) (b : Json)
    (hb : validHandshake (some b) = false) :
    processFrame (buildProtocol version messages) st
        (some (Json.arr [Json.num 0, b])) =
      .ok (st, some (.invalid (some b))) := by
  have h1 : validTuple (buildProtocol version messages)
      (Json.arr [Json.num 0, b]) = true :=
    validTuple_pair_known b (by simp [knownPfxs])
  have h2 : validHandshake (jsonIndex (Json.arr [Json.num 0, b]) 1) = false := by
    simpa [jsonIndex] using hb
  have h3 : findByPfx (buildProtocol version messages)
      (jsonIndex (Json.arr [Json.num 0, b]) 0) = none := by
    simpa [jsonIndex] using findByPfx_zero_of_built version messages
  simpa [jsonIndex] using processFrame_unregistered st h1 (Or.inr h2) h3

theorem c9_witness :
    processFrame testProtocol testChannel
        (some (Json.arr [Json.num 0, Json.num 5])) =
      .ok (testChannel, some (.invalid (some (Json.num 5)))) :=
  c9_zero_tag_bad_body_soft 1 [("apple", appleOpts), ("orange", orangeOpts)]
    testChannel (Json.num 5) (by decide)

/-- C1 counterexample: against the test's protocol (registered prefixes 1
and 2), a received frame parsing as the two-element tuple `[7, "x"]` —
whose prefix 7 is not a registered message-type prefix and not 0 — makes
`_parse` fail with the fatal "invalid tuple" error (the channel is
terminated); contrary to the claim, no "invalid" event is emitted and the
channel does not stay open. -/
theorem c1_counterexample :
    processFrame testProtocol testChannel
        (some (Json.arr [Json.num 7, Json.str "x"])) = .error .invalidTuple ∧
    processFrame testProtocol testChannel
        (some (Json.arr [Json.num 7, Json.str "x"])) ≠
      .ok (testChannel, some (.invalid (some (Json.str "x")))) := by
  refine ⟨rfl, ?_⟩
  intro h
  have h2 : (Except.error ProtocolError.invalidTuple :
      Except ProtocolError (ChannelState × Option ParseEvent)) =
      .ok (testChannel, some (.invalid (some (Json.str "x")))) := h
  exact Except.noConfusion h2

/-- C1 (amended): for every received frame, if the frame bytes are not
valid JSON, or the parsed value fails the outer tuple schema, the channel
is terminated with an error; a two-element tuple whose prefix is not a
registered message-type prefix and not 0 fails the outer tuple schema and
therefore also terminates the channel; the "invalid" event carrying the raw
body (with the channel left open and unchanged) is emitted instead exactly
for tuples that pass the outer schema but have no registered type for their
prefix, or whose body fails the registered type's schema or verify hook. -/
theorem c1_frame_rejection (P : ProtocolDef) (st : ChannelState) :
    (processFrame P st none = .error .jsonParseError) ∧
    (∀ j : Json, validTuple P j = false →
      processFrame P st (some j) = .error .invalidTuple) ∧
    (∀ (p : Int) (b : Json), ¬ p ∈ knownPfxs P →
      processFrame P st (some (Json.arr [Json.num p, b])) = .error .invalidTuple) ∧
    (∀ b : Json, findByPfx P (some (Json.num 0)) = none →
      validHandshake (some b) = false →
      processFrame P st (some (Json.arr [Json.num 0, b])) =
        .ok (st, some (.invalid (some b)))) ∧
    (∀ (p : Int) (b : Json) (t : MessageType), p ≠ 0 → p ∈ knownPfxs P →
      findByPfx P (some (Json.num p)) = some t →
      (t.valid (some b) = false ∨ t.verify (some b) = false) →
      processFrame P st (some (Json.arr [Json.num p, b])) =
        .ok (st, some (.invalid (some b)))) := by
  refine ⟨rfl, fun j h => processFrame_bad_tuple st h, ?_, ?_, ?_⟩
  · intro p b hp
    exact processFrame_bad_tuple st (validTuple_pair_not_known b hp)
  · intro b hfind hb
    have h1 : validTuple P (Json.arr [Json.num 0, b]) = true :=
      validTuple_pair_known b (by simp [knownPfxs])
    have h2 : validHandshake (jsonIndex (Json.arr [Json.num 0, b]) 1) = false := by
      simpa [jsonIndex] using hb
    have h3 : findByPfx P (jsonIndex (Json.arr [Json.num 0, b]) 0) = none := by
      simpa [jsonIndex] using hfind
    simpa [jsonIndex] using processFrame_unregistered st h1 (Or.inr h2) h3
  · intro p b t hp hmem hfind hbad
    have h1 : validTuple P (Json.arr [Json.num p, b]) = true :=
      validTuple_pair_known b hmem
    have h2 : isZeroTag (jsonIndex (Json.arr [Json.num p, b]) 0) = false := by
      simp [jsonIndex, isZeroTag, hp]
    have h3 : findByPfx P (jsonIndex (Json.arr [Json.num p, b]) 0) = some t := by
      simpa [jsonIndex] using hfind
    have h4 : t.valid (jsonIndex (Json.arr [Json.num p, b]) 1) = false ∨
        t.verify (jsonIndex (Json.arr [Json.num p, b]) 1) = false := by
      simpa [jsonIndex] using hbad
    simpa [jsonIndex] using processFrame_soft_invalid st h1 (Or.inl h2) h3 h4

theorem c1_frame_rejection_witness :
    processFrame testProtocol testChannel
        (some (Json.arr [Json.num 0, Json.str "zzz"])) =
      .ok (testChannel, some (.invalid (some (Json.str "zzz")))) :=
  (c1_frame_rejection testProtocol testChannel).2.2.2.1 (Json.str "zzz")
    rfl (by decide)

/-- C2: an outbound chunk leaving through `_readableStream` is
cipher-transformed by the outbound cipher exactly when the local handshake
frame has already been sent (`_sentNonce`): before that — in particular for
the handshake frame itself, which is written while `_sentNonce` is still
false — the bytes pass unchanged and the cipher is untouched; a successful
`handshake()` then flips `_sentNonce`, so later chunks are transformed.  An
inbound chunk entering through `_writableStream` passes unchanged until the
inbound cipher exists and is decrypted with it afterwards. -/
theorem c2_cipher_gating (P : ProtocolDef) (ks : Keystream) (st : ChannelState)
    (chunk : List Nat) :
    (st.sentNonce = false → readableTransform ks st chunk = .ok (st, chunk)) ∧
    (∀ c, st.sentNonce = true → st.sendingCipher = some c →
      readableTransform ks st chunk =
        .ok ({ st with sendingCipher := some (c.update ks chunk).1 },
             (c.update ks chunk).2)) ∧
    (st.receivingCipher = none → writableTransform ks st chunk = (st, chunk)) ∧
    (∀ c, st.receivingCipher = some c →
      writableTransform ks st chunk =
        ({ st with receivingCipher := some (c.update ks chunk).1 },
         (c.update ks chunk).2)) ∧
    (st.sentNonce = false → ((handshake P st none).1).sentNonce = true) := by
  refine ⟨?_, ?_, ?_, ?_, ?_⟩
  · intro h; simp [readableTransform, h]
  · intro c h hc; simp [readableTransform, h, hc]
  · intro h; simp [writableTransform, h]
  · intro c h; simp [writableTransform, h]
  · intro h; simp [handshake, h]

theorem c2_witness :
    readableTransform (fun _ _ _ => 7) testChannel [1, 2, 3] =
      .ok (testChannel, [1, 2, 3]) ∧
    writableTransform (fun _ _ _ => 7)
        (receiveNonce testChannel (hexDecode testNonceHex.data)) [1, 2, 3] =
      ({ receiveNonce testChannel (hexDecode testNonceHex.data) with
          receivingCipher := some
            (((makeCipher (hexDecode testNonceHex.data) testChannel.key).update
              (fun _ _ _ => 7) [1, 2, 3]).1) },
       (((makeCipher (hexDecode testNonceHex.data) testChannel.key).update
          (fun _ _ _ => 7) [1, 2, 3]).2)) :=
  ⟨(c2_cipher_gating testProtocol (fun _ _ _ => 7) testChannel [1, 2, 3]).1 rfl,
   (c2_cipher_gating testProtocol (fun _ _ _ => 7)
      (receiveNonce testChannel (hexDecode testNonceHex.data)) [1, 2, 3]).2.2.2.1
     (makeCipher (hexDecode testNonceHex.data) testChannel.key) rfl⟩

/-- C4: `handshake()` is callable at most once per instance: with the local
handshake already sent it fails with "already sent handshake" and writes
nothing; a first call writes the tuple
`[0, {version, nonce: hex(outboundNonce)}]` to the encoder stream and flips
`_sentNonce` only on successful write (on a write error the flag stays
unset); after a successful first call, a second call fails with "already
sent handshake" and writes no second frame. -/
theorem c4_handshake_once (P : ProtocolDef) (st : ChannelState)
    (w : Option String) :
    (st.sentNonce = true →
      handshake P st w = (st, some "already sent handshake", none)) ∧
    (st.sentNonce = false →
      handshake P st none =
        ({ st with sentNonce := true }, none,
         some (encodeTuple 0 (Json.obj
           [("version", Json.num P.version),
            ("nonce", Json.str (hexEncode st.sendingNonce))])))) ∧
    (∀ e, st.sentNonce = false →
      handshake P st (some e) =
        (st, some e,
         some (encodeTuple 0 (Json.obj
           [("version", Json.num P.version),
            ("nonce", Json.str (hexEncode st.sendingNonce))])))) ∧
    (st.sentNonce = false →
      handshake P ((handshake P st none).1) w =
        ((handshake P st none).1, some "already sent handshake", none)) := by
  refine ⟨?_, ?_, ?_, ?_⟩
  · intro h; simp [handshake, h]
  · intro h; simp [handshake, h]
  · intro e h; simp [handshake, h]
  · intro h; simp [handshake, h]

theorem c4_witness :
    handshake testProtocol testChannel none =
      ({ testChannel with sentNonce := true }, none,
       some (encodeTuple 0 (Json.obj
         [("version", Json.num 1),
          ("nonce", Json.str (hexEncode testChannel.sendingNonce))]))) ∧
    handshake testProtocol ((handshake testProtocol testChannel none).1) none =
      ((handshake testProtocol testChannel none).1,
       some "already sent handshake", none) :=
  ⟨(c4_handshake_once testProtocol testChannel none).2.1 rfl,
   (c4_handshake_once testProtocol testChannel none).2.2.2 rfl⟩

/-- C5: for every declared message type and every payload failing the
type's compiled schema or its verify hook, the send operation raises a
synchronous "invalid <name>" error carrying the schema validator's
structured error detail; the result is an `Except.error`, so no frame is
handed to `_encode` (no bytes reach the transport) and the channel state is
untouched (the error is thrown to the caller, not routed to the channel's
terminal error path). -/
theorem c5_invalid_payload_raises (P : ProtocolDef) (typeName : String)
    (t : MessageType) (data : Json)
    (ht : P.types.find? (fun x => x.name = typeName) = some t)
    (hbad : t.valid (some data) = false ∨ t.verify (some data) = false) :
    sendMessage P typeName data =
      .error (.invalidPayload t.name (t.errs (some data))) ∧
    ∀ frame : Json, sendMessage P typeName data ≠ .ok frame := by
  have hmain : sendMessage P typeName data =
      .error (.invalidPayload t.name (t.errs (some data))) := by
    unfold sendMessage
    rw [ht]
    rcases hbad with h | h <;> simp [h]
  refine ⟨hmain, fun frame hframe => ?_⟩
  rw [hmain] at hframe
  exact Except.noConfusion hframe

theorem c5_witness :
    sendMessage testProtocol "apple" (Json.str "banana") =
      .error (.invalidPayload "apple" ["should be equal to constant apple"]) :=
  (c5_invalid_payload_raises testProtocol "apple" appleBuiltT
    (Json.str "banana") rfl (Or.inl rfl)).1

/-- C7: for every valid protocol definition (non-empty message mapping),
the prefix assigned to a message name is its 1-based index in the
lexicographically sorted name list; the assignment depends only on the
multiset of names (deterministic across re-builds, whatever order the
mapping enumerates its keys in), and no built message type carries
prefix 0. -/
theorem c7_pfx_assignment (m₁ m₂ : List (String × MessageOptions))
    (_hne : m₁ ≠ [])
    (hperm : (m₁.map (fun kv => kv.1)).Perm (m₂.map (fun kv => kv.1))) :
    ((buildTypes m₁).map (fun t => (t.name, t.pfx)) =
      (buildTypes m₂).map (fun t => (t.name, t.pfx))) ∧
    (∀ (i : Nat) (h : i < (buildTypes m₁).length),
      ((buildTypes m₁).get ⟨i, h⟩).pfx = i + 1 ∧
        some ((buildTypes m₁).get ⟨i, h⟩).name =
          (sortNames (m₁.map (fun kv => kv.1)))[i]?) ∧
    (∀ t ∈ buildTypes m₁, t.pfx ≠ 0) := by
  refine ⟨?_, ?_, ?_⟩
  · rw [buildTypes, buildTypes, assignTypes_map_name_pfx m₁, assignTypes_map_name_pfx m₂,
      sortNames_eq_of_perm hperm]
  · intro i h
    have h' : i < (assignTypes m₁ 1 (sortNames (m₁.map (fun kv => kv.1)))).length := h
    have hg := assignTypes_get m₁ (sortNames (m₁.map (fun kv => kv.1))) 1 i h'
    exact ⟨hg.1.trans (Nat.add_comm 1 i), hg.2⟩
  · intro t ht
    have := buildTypes_pfx_pos m₁ t ht
    omega

theorem c7_witness :
    (buildTypes [("orange", orangeOpts), ("apple", appleOpts)]).map
        (fun t => (t.name, t.pfx)) =
      (buildTypes [("apple", appleOpts), ("orange", orangeOpts)]).map
        (fun t => (t.name, t.pfx)) :=
  (c7_pfx_assignment [("orange", orangeOpts), ("apple", appleOpts)]
    [("apple", appleOpts), ("orange", orangeOpts)]
    (List.cons_ne_nil _ _) (by decide)).1

/-- C8: `finalize(callback)` with a successful drain tears down both
ciphers at once (both nulled in the resulting state), and doing so is
possible only once — a second finalize of the already-finalized state
crashes on the nulled cipher; finalizing a channel whose inbound cipher was
never established (the remote handshake never arrived) is likewise the
null-cipher error, not a silent success; a failed drain destroys the
channel with the drain's error. -/
theorem c8_finalize_teardown (st : ChannelState) :
    (∀ cs cr, st.sendingCipher = some cs → st.receivingCipher = some cr →
      finalize st none =
        .finalized { st with sendingCipher := none, receivingCipher := none } ∧
      finalize { st with sendingCipher := none, receivingCipher := none } none =
        .nullCipherCrash) ∧
    (st.receivingCipher = none → finalize st none = .nullCipherCrash) ∧
    (∀ e, finalize st (some e) = .drainFailed e) := by
  refine ⟨?_, ?_, fun e => rfl⟩
  · intro cs cr hs hr
    constructor
    · simp [finalize, hs, hr]
    · simp [finalize]
  · intro hr
    cases hs : st.sendingCipher <;> simp [finalize, hs, hr]

theorem c8_witness :
    finalize (receiveNonce testChannel (hexDecode testNonceHex.data)) none =
      .finalized { receiveNonce testChannel (hexDecode testNonceHex.data) with
        sendingCipher := none, receivingCipher := none } ∧
    finalize testChannel none = .nullCipherCrash :=
  ⟨((c8_finalize_teardown
      (receiveNonce testChannel (hexDecode testNonceHex.data))).1
      (makeCipher (List.replicate STREAM_NONCEBYTES 0)
        (List.replicate STREAM_KEYBYTES 0))
      (makeCipher (hexDecode testNonceHex.data) testChannel.key) rfl rfl).1,
   (c8_finalize_teardown testChannel).2.1 rfl⟩

end EncryptedJsonProtocol
